import Mathlib

/-!
Verification of the Etna 6-component waveform plotting script
(MESS_2024_Eibl_Etna.py).

The script reads three translational (HH*) and three rotational (HJ*)
seismic channels for six hardcoded event windows, preprocesses them
(detrend, taper, response removal or unit conversion plus integration,
bandpass, trim), merges them into one six-channel stream, and renders a
figure with six seismogram panels, six spectrogram panels and color bars.

This file gives a shallow embedding of the data model and of the
operations of the script, and proves or refutes the specification
claims about them.  Times are modelled as integer seconds, samples and
frequencies as rationals.
-/

namespace Etna

/-- Model of an obspy Trace: identification header plus sample data.
`delta` is the sampling interval in seconds (obspy `stats.delta`). -/
structure Trace where
  network : String
  station : String
  location : String
  channel : String
  delta : ℚ
  data : List ℚ
deriving DecidableEq, Inhabited, Repr

/-- The obspy trace identifier NET.STA.LOC.CHAN used as the sort key by
`Stream.sort()` (network, station, location and channel, in this order). -/
def traceId (tr : Trace) : String :=
  tr.network ++ "." ++ tr.station ++ "." ++ tr.location ++ "." ++ tr.channel

/-- Lexicographic comparison of two character sequences by code point,
the order Python uses on strings and obspy on trace identifiers. -/
def charListLe : List Char → List Char → Bool
  | [], _ => true
  | _ :: _, [] => false
  | a :: as, b :: bs =>
    if a.toNat < b.toNat then true
    else if b.toNat < a.toNat then false
    else charListLe as bs

theorem charListLe_total (a : List Char) :
    ∀ b, charListLe a b = true ∨ charListLe b a = true := by
  induction a with
  | nil => intro b; left; rfl
  | cons x xs ih =>
    intro b
    cases b with
    | nil => right; rfl
    | cons y ys =>
      simp only [charListLe]
      rcases Nat.lt_trichotomy x.toNat y.toNat with h | h | h
      · left; simp [h]
      · have h1 : ¬ x.toNat < y.toNat := by omega
        have h2 : ¬ y.toNat < x.toNat := by omega
        rcases ih ys with hh | hh
        · left; simp [h1, h2, hh]
        · right; simp [h1, h2, hh]
      · right; simp [h]

theorem charListLe_trans (a : List Char) :
    ∀ b c, charListLe a b = true → charListLe b c = true →
      charListLe a c = true := by
  induction a with
  | nil => intro b c _ _; rfl
  | cons x xs ih =>
    intro b c hab hbc
    match b, c with
    | [], _ => exact absurd hab (by simp [charListLe])
    | _ :: _, [] => exact absurd hbc (by simp [charListLe])
    | y :: ys, z :: zs =>
      simp only [charListLe] at hab hbc ⊢
      by_cases hxz : x.toNat < z.toNat
      · simp [hxz]
      · by_cases hzx : z.toNat < x.toNat
        · exfalso
          by_cases hxy : x.toNat < y.toNat
          · have h1 : ¬ y.toNat < z.toNat := by omega
            have h2 : z.toNat < y.toNat := by omega
            simp [h1, h2] at hbc
          · by_cases hyx : y.toNat < x.toNat
            · simp [hxy, hyx] at hab
            · have h1 : ¬ y.toNat < z.toNat := by omega
              have h2 : z.toNat < y.toNat := by omega
              simp [h1, h2] at hbc
        · simp only [hxz, hzx, if_false]
          by_cases hxy : x.toNat < y.toNat
          · have h1 : ¬ y.toNat < z.toNat := by omega
            have h2 : z.toNat < y.toNat := by omega
            simp [h1, h2] at hbc
          · by_cases hyx : y.toNat < x.toNat
            · simp [hxy, hyx] at hab
            · have h1 : ¬ y.toNat < z.toNat := by omega
              have h2 : ¬ z.toNat < y.toNat := by omega
              simp only [hxy, hyx, if_false] at hab
              simp only [h1, h2, if_false] at hbc
              exact ih ys zs hab hbc

/-- Order on traces by identifier, as used by `Stream.sort()`. -/
def traceLe (a b : Trace) : Prop :=
  charListLe (traceId a).data (traceId b).data = true

instance : DecidableRel traceLe := fun a b => by
  unfold traceLe; infer_instance

instance : IsTotal Trace traceLe :=
  ⟨fun a b => charListLe_total (traceId a).data (traceId b).data⟩

instance : IsTrans Trace traceLe :=
  ⟨fun _ _ _ h h2 => charListLe_trans _ _ _ h h2⟩

/-- `Stream.sort()` of obspy: sort the traces of a stream by identifier. -/
def sortStream (st : List Trace) : List Trace := List.insertionSort traceLe st

/-- numpy `data.max()` on a sample array (0 on an empty array, which the
script never produces). -/
def listMax : List ℚ → ℚ
  | [] => 0
  | x :: xs => xs.foldl max x

/-- numpy `data.min()` on a sample array (0 on an empty array). -/
def listMin : List ℚ → ℚ
  | [] => 0
  | x :: xs => xs.foldl min x

/-- obspy `Trace.max()`: the signed value of the sample with the largest
absolute value. -/
def traceMax (tr : Trace) : ℚ :=
  let value := listMax tr.data
  let m := listMin tr.data
  if |m| > |value| then m else value

/-- Scale factor 1e-9 converting nanorad/s to rad/s (line 86 of the script). -/
def nano : ℚ := 1 / 10 ^ 9

/-- In-place scaling of the sample data of a trace (`tr.data = tr.data * c`). -/
def scaleTrace (c : ℚ) (tr : Trace) : Trace := { tr with data := tr.data.map (· * c) }

/-- Auxiliary recursion for the cumulative trapezoid: `prev` is the previous
sample of the input, `acc` the accumulated integral so far. -/
def cumtrapzAux (dt : ℚ) : ℚ → ℚ → List ℚ → List ℚ
  | _, _, [] => []
  | prev, acc, x :: xs =>
    let acc2 := acc + dt * (prev + x) / 2
    acc2 :: cumtrapzAux dt x acc2 xs

/-- scipy `cumtrapz(data, dx=dt, initial=0)`: cumulative trapezoidal
integration with uniform sample spacing `dt`, first output sample 0.
This is what `Stream.integrate()` of obspy applies to each trace. -/
def cumtrapz (dt : ℚ) : List ℚ → List ℚ
  | [] => []
  | x :: xs => 0 :: cumtrapzAux dt x 0 xs

/-- obspy `Trace.integrate()` with the default cumtrapz method: cumulative
trapezoidal integration of the samples with spacing `delta`. -/
def integrateTrace (tr : Trace) : Trace :=
  { tr with data := cumtrapz tr.delta tr.data }

/-- Lines 86-88 of the script: `st_rot[0].data = st_rot[0].data * 1e-9` and
likewise for indices 1 and 2.  Indexing a stream of fewer than three traces
raises, hence the Option. -/
def convertRot : List Trace → Option (List Trace)
  | a :: b :: c :: rest =>
    some (scaleTrace nano a :: scaleTrace nano b :: scaleTrace nano c :: rest)
  | _ => none

/-- Lines 64-99 of the script, after the per-trace filtering: sort both
streams, scale channels 0-2 of the rotational stream by 1e-9, integrate the
rotational stream, take `abs(st_trans[0].max())` and `abs(st_rot[0].max())`
as the two amplitude scales, and concatenate the streams (translational
first).  Empty streams raise on indexing, hence the Option. -/
def read_data (st_trans st_rot : List Trace) :
    Option (List Trace × ℚ × ℚ) :=
  let t := sortStream st_trans
  match convertRot (sortStream st_rot) with
  | none => none
  | some r0 =>
    let r := r0.map integrateTrace
    match t.head?, r.head? with
    | some t0, some rh => some (t ++ r, |traceMax t0|, |traceMax rh|)
    | _, _ => none

/-! Global constants of the first cell of the script (lines 19-29). -/

/-- Pre-filter corner frequencies for response removal (line 19). -/
def prefilt : List ℚ := [8/1000, 1/100, 95, 99]

/-- Lower bound of the bandpass and of the displayed frequency axis (line 20). -/
def fmin : ℚ := 1/2

/-- Upper bound of the bandpass and of the displayed frequency axis (line 21). -/
def fmax : ℚ := 20

/-- Spectrogram window length in samples (line 23). -/
def wlen : ℕ := 128

/-- Spectrogram overlap in samples: `wlen / 2` (line 24). -/
def overlap : ℕ := wlen / 2

/-- Translational spectrogram color lower bound `2 * 10**-15` (line 25). -/
def vmin1 : ℚ := 2 / 10 ^ 15

/-- Translational spectrogram color upper bound `1.0 * 10**-10` (line 26). -/
def vmax1 : ℚ := 1 / 10 ^ 10

/-- Rotational spectrogram color lower bound `2 * 10**-17` (line 27). -/
def vmin : ℚ := 2 / 10 ^ 17

/-- Rotational spectrogram color upper bound `3.0 * 10**-16` (line 28). -/
def vmax : ℚ := 3 / 10 ^ 16

/-- Symmetric-log frequency axis toggle (line 29). -/
def log : Bool := false

/-! The spectrogram renderer (fourth cell, lines 129-148). -/

/-- The observable parameters of one rendered spectrogram panel: the PSD
window parameters handed to `signal.spectrogram`, the displayed frequency
axis bounds set by `set_ylim`, the color bounds, and the symlog toggle. -/
structure SpecRender where
  nperseg : ℕ
  noverlap : ℕ
  freqAxisLow : ℚ
  freqAxisHigh : ℚ
  colorLow : ℚ
  colorHigh : ℚ
  symlog : Bool
deriving DecidableEq, Repr

/-- `plot_spectrogram(axis, trace, vmin, vmax, tstart, wlen, overlap)`:
computes `signal.spectrogram(trace.data, sr, nperseg=wlen, noverlap=overlap)`
and sets the frequency axis to `set_ylim(fmin, fmax)` with the global fmin
and fmax; symlog scale iff the global `log` is true.  Only the display
parameters are modelled; the rendered mesh itself is not needed by any
claim. -/
def plot_spectrogram (_trace : Trace) (vmn vmx : ℚ) (wl ov : ℕ) : SpecRender :=
  { nperseg := wl
    noverlap := ov
    freqAxisLow := fmin
    freqAxisHigh := fmax
    colorLow := vmn
    colorHigh := vmx
    symlog := log }

/-! The figure composer `plotting_6C` (lines 157-228). -/

/-- Seismogram y-limits of panel `i` (lines 184-187): symmetric about zero,
translational scale for the first three panels, rotational for the rest. -/
def panelYlim (trans_max rot_max : ℚ) (i : ℕ) : ℚ × ℚ :=
  if i < 3 then (-trans_max, trans_max) else (-rot_max, rot_max)

/-- Spectrogram color bounds of panel `i` (lines 197-201): `_vmin`/`_vmax`
default to the rotational bounds and are overridden for `i < 3`. -/
def spectrogramBounds (i : ℕ) : ℚ × ℚ :=
  if i < 3 then (vmin1, vmax1) else (vmin, vmax)

/-- The spectrogram render of panel `i` as issued by `plotting_6C`
(line 202): the global `wlen` and `overlap` and the per-group color
bounds are handed to `plot_spectrogram`. -/
def plotting6C_spectro (st : List Trace) (i : ℕ) : SpecRender :=
  plot_spectrogram (st.getD i default) (spectrogramBounds i).1
    (spectrogramBounds i).2 wlen overlap

/-- The subplot grid calls of `plotting_6C`: iteration `i` issues
`subplot(6, 2, 1 + 2 i)` for the seismogram and `subplot(6, 2, 2 + 2 i)`
for the spectrogram (lines 164 and 195). -/
def plotting6C_subplots : List (ℕ × ℕ × ℕ) :=
  (List.range 6).flatMap fun i => [(6, 2, 1 + 2 * i), (6, 2, 2 + 2 * i)]

/-- The color bar axes rectangle `[0.927, 0.505, 0.01, 0.37]` of the
translational group (line 220). -/
def transColorbarRect : ℚ × ℚ × ℚ × ℚ := (927/1000, 505/1000, 1/100, 37/100)

/-- The color bar axes rectangle `[0.927, 0.11, 0.01, 0.37]` of the
rotational group (line 223). -/
def rotColorbarRect : ℚ × ℚ × ℚ × ℚ := (927/1000, 11/100, 1/100, 37/100)

/-- The color bar axes rectangle added in iteration `i` (lines 219-224):
the translational rectangle for i < 3, the rotational one otherwise. -/
def colorbarRect (i : ℕ) : ℚ × ℚ × ℚ × ℚ :=
  if i < 3 then transColorbarRect else rotColorbarRect

/-- The color bar insertions of `plotting_6C`: one `fig.add_axes` plus
`plt.colorbar` in every one of the six iterations (lines 218-224). -/
def plotting6C_colorbars : List (ℚ × ℚ × ℚ × ℚ) :=
  (List.range 6).map colorbarRect

/-! The processing pipelines of `read_data` (second cell, lines 35-99),
recorded as the sequence of stream operations the script issues.  Times
are integer seconds. -/

/-- One stream operation of the script. -/
inductive Step where
  | readFiles (pattern : String) (starttime endtime : ℤ)
  | detrend (mode : String)
  | taper (maxPercentage : ℚ) (ttype : String)
  | removeResponse (preFilt : List ℚ) (output : String)
  | bandpass (freqmin freqmax : ℚ) (corners : ℕ) (zerophase : Bool)
  | trim (starttime endtime : ℤ)
  | sortStep
  | scaleChannel (idx : ℕ) (factor : ℚ)
  | integrate
deriving DecidableEq, Repr

/-- The operations applied to the translational stream, in the order of
lines 39-65: read over the window widened by 30 s on each side, demean,
linear detrend, two cosine tapers, response removal with the pre-filter,
demean, linear detrend, taper, bandpass, trim to the exact window, sort. -/
def transSteps (tstart tend : ℤ) (fm fM : ℚ) : List Step :=
  [ .readFiles "ZR.RS1..HH*" (tstart - 1 * 30) (tend + 1 * 30)
  , .detrend "demean"
  , .detrend "linear"
  , .taper (1/100) "cosine"
  , .taper (1/100) "cosine"
  , .removeResponse prefilt "VEL"
  , .detrend "demean"
  , .detrend "linear"
  , .taper (1/100) "cosine"
  , .bandpass fm fM 2 true
  , .trim tstart tend
  , .sortStep ]

/-- The operations applied to the rotational stream, in the order of
lines 68-91: read over the exact window, demean, linear detrend, two
cosine tapers, demean, linear detrend, taper, bandpass, trim, sort, then
scaling of channels 0-2 by 1e-9 and integration. -/
def rotSteps (tstart tend : ℤ) (fm fM : ℚ) : List Step :=
  [ .readFiles "ZR.RS1..HJ*" tstart tend
  , .detrend "demean"
  , .detrend "linear"
  , .taper (1/100) "cosine"
  , .taper (1/100) "cosine"
  , .detrend "demean"
  , .detrend "linear"
  , .taper (1/100) "cosine"
  , .bandpass fm fM 2 true
  , .trim tstart tend
  , .sortStep
  , .scaleChannel 0 nano
  , .scaleChannel 1 nano
  , .scaleChannel 2 nano
  , .integrate ]

/-- Recognises a bandpass filter step. -/
def isBandpassStep : Step → Bool
  | .bandpass _ _ _ _ => true
  | _ => false

/-- Recognises a trim step. -/
def isTrimStep : Step → Bool
  | .trim _ _ => true
  | _ => false

/-- Recognises a unit-conversion (channel scaling) step. -/
def isScaleStep : Step → Bool
  | .scaleChannel _ _ => true
  | _ => false

/-- Recognises an integration step. -/
def isIntegrateStep : Step → Bool
  | .integrate => true
  | _ => false

/-- Recognises a detrend step. -/
def isDetrendStep : Step → Bool
  | .detrend _ => true
  | _ => false

/-- Recognises a taper step. -/
def isTaperStep : Step → Bool
  | .taper _ _ => true
  | _ => false

/-! The y-axis label lookup of `plotting_6C` (lines 169-188). -/

/-- The chain of `if` statements of lines 170-181 as a lookup: the label the
channel name would assign to the Python variable `chan`, or none when no
branch matches.  The conditions are mutually exclusive, so the chain of
independent `if` statements is an ordinary case distinction. -/
def chanLabel (c : String) : Option String :=
  if c = "HHE" then some (c ++ " (m/s)")
  else if c = "HHN" then some (c ++ " (m/s)")
  else if c = "HHZ" then some (c ++ " (m/s)")
  else if c = "HJ1" ∨ c = "HJE" then some " HJE (rad)"
  else if c = "HJ2" ∨ c = "HJN" then some " HJN (rad)"
  else if c = "HJ3" ∨ c = "HJZ" then some " HJZ (rad)"
  else none

/-- The channel names that assign a label (the guards of lines 170-181). -/
def knownChannels : List String :=
  ["HHE", "HHN", "HHZ", "HJ1", "HJE", "HJ2", "HJN", "HJ3", "HJZ"]

/-- The label loop of `plotting_6C` over the channel names of the stream.
In Python the variable `chan` keeps its previous value when no `if` branch
matches, so the state is the current value of `chan` (none while unbound).
Reading `chan` while unbound (line 188, `set_ylabel`) raises
UnboundLocalError, modelled by the error case. -/
def labelPanels : Option String → List String → Except Unit (List String)
  | _, [] => Except.ok []
  | prev, c :: rest =>
    match (chanLabel c).orElse (fun _ => prev) with
    | none => Except.error ()
    | some lab => (labelPanels (some lab) rest).map (lab :: ·)

/-- The y-axis labels assigned by `plotting_6C` to the panels, in order.
`chan` starts out unbound. -/
def plotting6C_labels (chans : List String) : Except Unit (List String) :=
  labelPanels none chans

/-! The event driver (lines 232-263). -/

/-- A UTCDateTime value: calendar fields plus an arithmetic offset in
seconds (`UTCDateTime(...) + s` adds `s` seconds). -/
structure UTCDT where
  year : ℕ
  month : ℕ
  day : ℕ
  hour : ℕ
  minute : ℕ
  sec : ℕ
  offset : ℤ := 0
deriving DecidableEq, Repr

/-- Addition of seconds to a UTCDateTime. -/
def addSec (t : UTCDT) (s : ℤ) : UTCDT := { t with offset := t.offset + s }

/-- One event window of the driver loop: start, end and human label. -/
structure EventWindow where
  tstart : UTCDT
  tend : UTCDT
  tag : String
deriving DecidableEq, Repr

/-- The six hardcoded event windows of lines 233-257, in iteration order;
each `tend` is the start plus a fixed duration, exactly as written. -/
def events : List EventWindow :=
  [ ⟨⟨2019, 9, 4, 15, 52, 0, 0⟩, addSec ⟨2019, 9, 4, 15, 52, 0, 0⟩ 120, "VT"⟩
  , ⟨⟨2019, 9, 17, 18, 40, 30, 0⟩, addSec ⟨2019, 9, 17, 18, 40, 30, 0⟩ 120, "VT"⟩
  , ⟨⟨2019, 8, 27, 14, 21, 0, 0⟩, addSec ⟨2019, 8, 27, 14, 21, 0, 0⟩ 90, "LP"⟩
  , ⟨⟨2019, 8, 27, 12, 18, 0, 0⟩, addSec ⟨2019, 8, 27, 12, 18, 0, 0⟩ 90, "LP"⟩
  , ⟨⟨2019, 9, 8, 12, 18, 0, 0⟩, addSec ⟨2019, 9, 8, 12, 18, 0, 0⟩ 120, "no tremor"⟩
  , ⟨⟨2019, 9, 9, 12, 18, 0, 0⟩, addSec ⟨2019, 9, 9, 12, 18, 0, 0⟩ 120, "tremor"⟩ ]

/-- Sequential processing of a list of events: the step of each iteration
runs before the next, and the first uncaught failure aborts the rest.  The
script has no try/except, so this is its only control flow. -/
def processList (f : EventWindow → Except String Unit) :
    List EventWindow → Except String Unit
  | [] => Except.ok ()
  | e :: rest =>
    match f e with
    | Except.error s => Except.error s
    | Except.ok _ => processList f rest

/-- The driver loop of lines 232-263: for each of the six events, read the
data (`read_data`) and then compose the figure (`plotting_6C`); any
exception from either propagates. -/
def runAllEvents {α : Type} (load : EventWindow → Except String α)
    (compose : α → Except String Unit) : Except String Unit :=
  processList (fun e => (load e).bind compose) events

/-- A translational channel: read by the glob ZR.RS1..HH*, so its channel
code starts with HH. -/
def isTranslational (tr : Trace) : Prop := tr.channel.data.take 2 = ['H', 'H']

/-- A rotational channel: read by the glob ZR.RS1..HJ*, so its channel
code starts with HJ. -/
def isRotational (tr : Trace) : Prop := tr.channel.data.take 2 = ['H', 'J']

instance (tr : Trace) : Decidable (isTranslational tr) := by
  unfold isTranslational; infer_instance

instance (tr : Trace) : Decidable (isRotational tr) := by
  unfold isRotational; infer_instance

/-- Sortedness is preserved by the per-channel 1e-9 scaling, which does
not touch the identifier. -/
theorem sorted_convertRot (l l' : List Trace) (h : convertRot l = some l')
    (hs : List.Sorted traceLe l) : List.Sorted traceLe l' := by
  match l, h with
  | a :: b :: c :: rest, h =>
    simp only [convertRot, Option.some.injEq] at h
    subst h
    rcases List.sorted_cons.mp hs with ⟨ha, hs2⟩
    rcases List.sorted_cons.mp hs2 with ⟨hb, hs3⟩
    rcases List.sorted_cons.mp hs3 with ⟨hc, hs4⟩
    refine List.sorted_cons.mpr ⟨?_, List.sorted_cons.mpr ⟨?_,
      List.sorted_cons.mpr ⟨?_, hs4⟩⟩⟩
    · intro x hx
      rcases List.mem_cons.mp hx with rfl | hx
      · exact ha b (by simp)
      rcases List.mem_cons.mp hx with rfl | hx
      · exact ha c (by simp)
      · exact ha x (by simp [hx])
    · intro x hx
      rcases List.mem_cons.mp hx with rfl | hx
      · exact hb c (by simp)
      · exact hb x (by simp [hx])
    · intro x hx
      exact hc x hx

/-- Every trace of the scaled stream has the channel code of a trace of
the input stream. -/
theorem mem_convertRot (l l' : List Trace) (h : convertRot l = some l') :
    ∀ x ∈ l', ∃ y ∈ l, x.channel = y.channel := by
  match l, h with
  | a :: b :: c :: rest, h =>
    simp only [convertRot, Option.some.injEq] at h
    subst h
    intro x hx
    rcases List.mem_cons.mp hx with rfl | hx
    · exact ⟨a, by simp, rfl⟩
    rcases List.mem_cons.mp hx with rfl | hx
    · exact ⟨b, by simp, rfl⟩
    rcases List.mem_cons.mp hx with rfl | hx
    · exact ⟨c, by simp, rfl⟩
    · exact ⟨x, by simp [hx], rfl⟩

/-- Stated from the words of the spec, for comparison with the code: the
maximum absolute amplitude taken over all traces of a channel group. -/
def groupAbsMax (sts : List Trace) : ℚ :=
  (sts.map fun tr => |traceMax tr|).foldl max 0

/-- Three translational traces whose first channel is not the loudest:
counterexample input for claim C1. -/
def cexTrans : List Trace :=
  [ ⟨"ZR", "RS1", "", "HHE", 1, [1]⟩
  , ⟨"ZR", "RS1", "", "HHN", 1, [5]⟩
  , ⟨"ZR", "RS1", "", "HHZ", 1, [2]⟩ ]

/-- Three rotational traces accompanying `cexTrans`. -/
def cexRot : List Trace :=
  [ ⟨"ZR", "RS1", "", "HJ1", 1, [0]⟩
  , ⟨"ZR", "RS1", "", "HJ2", 1, [0]⟩
  , ⟨"ZR", "RS1", "", "HJ3", 1, [0]⟩ ]

/-- The processed rotational traces of `cexRot` (scaled and integrated:
one zero sample each). -/
def cexRotOut : List Trace :=
  [ ⟨"ZR", "RS1", "", "HJ1", 1, [0]⟩
  , ⟨"ZR", "RS1", "", "HJ2", 1, [0]⟩
  , ⟨"ZR", "RS1", "", "HJ3", 1, [0]⟩ ]

/-- The merged six-channel stream `read_data` returns on the
counterexample input. -/
def cexMerged : List Trace := cexTrans ++ cexRotOut

/-- On a constant input the cumulative trapezoid accumulates `c * dt` per
sample: sample `j` of the tail is `acc + c * dt * (j + 1)`. -/
theorem cumtrapzAux_replicate (dt c : ℚ) :
    ∀ (m : ℕ) (acc : ℚ) (j : ℕ), j < m →
      (cumtrapzAux dt c acc (List.replicate m c)).get? j =
        some (acc + c * dt * (j + 1)) := by
  intro m
  induction m with
  | zero => intro acc j h; exact absurd h (by omega)
  | succ m ih =>
    intro acc j hj
    simp only [List.replicate_succ, cumtrapzAux]
    cases j with
    | zero =>
      simp only [List.get?_cons_zero, Option.some.injEq]
      push_cast
      ring
    | succ j =>
      simp only [List.get?_cons_succ]
      rw [ih _ j (by omega)]
      congr 1
      push_cast
      ring

/-- Integrating a constant input of value `c` with spacing `dt` yields the
linear ramp `c * dt * k` at sample `k`. -/
theorem cumtrapz_replicate (dt c : ℚ) (n k : ℕ) (hk : k < n) :
    (cumtrapz dt (List.replicate n c)).get? k = some (c * dt * k) := by
  cases n with
  | zero => exact absurd hk (by omega)
  | succ m =>
    simp only [List.replicate_succ, cumtrapz]
    cases k with
    | zero => simp
    | succ j =>
      simp only [List.get?_cons_succ]
      rw [cumtrapzAux_replicate dt c m 0 j (by omega)]
      congr 1
      push_cast
      ring

/-- Sequential processing reaches the first failing event with all
earlier events succeeded, and returns its error. -/
theorem processList_append_error (f : EventWindow → Except String Unit)
    (pre : List EventWindow) (e : EventWindow) (post : List EventWindow)
    (err : String) (hpre : ∀ x ∈ pre, f x = Except.ok ())
    (he : f e = Except.error err) :
    processList f (pre ++ e :: post) = Except.error err := by
  induction pre with
  | nil => simp only [List.nil_append, processList, he]
  | cons p ps ih =>
    have hp : f p = Except.ok () := hpre p (by simp)
    simp only [List.cons_append, processList, hp]
    exact ih (fun x hx => hpre x (by simp [hx]))

/-- A channel name in the lookup table yields a label. -/
theorem chanLabel_isSome_of_mem : ∀ c ∈ knownChannels, (chanLabel c).isSome := by
  decide

/-- A channel name outside the lookup table leaves `chan` unassigned. -/
theorem chanLabel_none_of_not_mem (c : String) (h : c ∉ knownChannels) :
    chanLabel c = none := by
  unfold chanLabel
  split_ifs with h1 h2 h3 h4 h5 h6
  · subst h1; exact absurd (by decide) h
  · subst h2; exact absurd (by decide) h
  · subst h3; exact absurd (by decide) h
  · rcases h4 with rfl | rfl <;> exact absurd (by decide) h
  · rcases h5 with rfl | rfl <;> exact absurd (by decide) h
  · rcases h6 with rfl | rfl <;> exact absurd (by decide) h
  · rfl

/-- When every channel name of the stream is in the lookup table, the
label loop succeeds and labels every panel, whatever the initial state of
the `chan` variable. -/
theorem labelPanels_ok (chans : List String) :
    ∀ prev : Option String, (∀ c ∈ chans, (chanLabel c).isSome) →
      ∃ labs, labelPanels prev chans = Except.ok labs ∧
        labs.length = chans.length := by
  induction chans with
  | nil => intro prev _; exact ⟨[], rfl, rfl⟩
  | cons c cs ih =>
    intro prev hall
    have hc : (chanLabel c).isSome := hall c (by simp)
    obtain ⟨l, hl⟩ := Option.isSome_iff_exists.mp hc
    obtain ⟨labs, hlabs, hlen⟩ :=
      ih (some l) (fun x hx => hall x (by simp [hx]))
    refine ⟨l :: labs, ?_, by simp [hlen]⟩
    simp only [labelPanels, hl, Option.orElse, hlabs]
    rfl

/-! Claim theorems. -/

/-- Claim C1, as stated, is false: on a stream whose three processed
translational channels have absolute amplitudes 1, 5 and 2, `read_data`
returns the translational amplitude scale 1 (the first channel), not the
maximum 5 over all three channels. -/
theorem C1_counterexample :
    (∃ st, read_data cexTrans cexRot = some (st, 1, 0)) ∧
    groupAbsMax cexTrans = 5 ∧ (1 : ℚ) ≠ 5 :=
  ⟨⟨cexMerged, by decide⟩, by decide, by decide⟩

/-- Claim C1 amended: the translational amplitude scale is the maximum
absolute amplitude of the FIRST (after sorting) translational channel
only, and the rotational amplitude scale that of the first processed
rotational channel only, not the maximum over all three channels of the
group; these values are used as symmetric y-limits (-max, +max), the
translational scale on panels 0-2 and the rotational scale on the
remaining panels. -/
theorem C1_first_channel_scale (st_trans st_rot st : List Trace) (tm rm : ℚ)
    (h : read_data st_trans st_rot = some (st, tm, rm)) :
    (∃ t0, st.head? = some t0 ∧ tm = |traceMax t0|) ∧
    (∃ r0, (st.drop st_trans.length).head? = some r0 ∧ rm = |traceMax r0|) ∧
    (∀ i, i < 3 → panelYlim tm rm i = (-tm, tm)) ∧
    (∀ i, 3 ≤ i → panelYlim tm rm i = (-rm, rm)) := by
  simp only [read_data] at h
  cases hconv : convertRot (sortStream st_rot) with
  | none => simp only [hconv] at h; exact Option.noConfusion h
  | some r0 =>
    simp only [hconv] at h
    cases ht : (sortStream st_trans).head? with
    | none => simp only [ht] at h; exact Option.noConfusion h
    | some t0 =>
      cases hr : (r0.map integrateTrace).head? with
      | none => simp only [ht, hr] at h; exact Option.noConfusion h
      | some rh =>
        simp only [ht, hr, Option.some.injEq, Prod.mk.injEq] at h
        obtain ⟨hst, htm, hrm⟩ := h
        subst hst htm hrm
        have hlen : (sortStream st_trans).length = st_trans.length :=
          (List.perm_insertionSort traceLe st_trans).length_eq
        refine ⟨⟨t0, ?_, rfl⟩, ⟨rh, ?_, rfl⟩, ?_, ?_⟩
        · rw [List.head?_append_of_ne_nil]
          · exact ht
          · intro hnil
            rw [hnil] at ht
            simp at ht
        · rw [← hlen, List.drop_left]
          exact hr
        · intro i hi
          simp [panelYlim, hi]
        · intro i hi
          have : ¬ i < 3 := by omega
          simp [panelYlim, this]

/-- Witness for C1: on concrete six-channel input the amended statement
evaluates as proved. -/
theorem C1_witness :
    read_data cexTrans cexRot = some (cexMerged, 1, 0) ∧
    ((∃ t0, cexMerged.head? = some t0 ∧ (1 : ℚ) = |traceMax t0|) ∧
      (∃ r0, (cexMerged.drop cexTrans.length).head? = some r0 ∧
        (0 : ℚ) = |traceMax r0|) ∧
      (∀ i, i < 3 → panelYlim 1 0 i = (-1, 1)) ∧
      (∀ i, 3 ≤ i → panelYlim 1 0 i = (-0, 0))) :=
  ⟨by decide, C1_first_channel_scale cexTrans cexRot cexMerged 1 0 (by decide)⟩

/-- Claim C2, as stated, is false: the claim puts the unit conversion and
the time-integration of the rotational stream before the final bandpass
and trim, but in the script the bandpass (index 8) and trim (index 9)
run before the first scaling step (index 11) and the integration
(index 14).  Concrete instance: window [0, 120], band [0.5, 20]. -/
theorem C2_counterexample :
    ¬ ((rotSteps 0 120 (1/2) 20).findIdx isScaleStep
        < (rotSteps 0 120 (1/2) 20).findIdx isBandpassStep) ∧
    ¬ ((rotSteps 0 120 (1/2) 20).findIdx isIntegrateStep
        < (rotSteps 0 120 (1/2) 20).findIdx isTrimStep) := by
  decide

/-- Claim C2 amended: for every rotational stream, detrending and tapering
come first, then the final bandpass (freqmin fm, freqmax fM, 2 corners,
zero-phase) and the trim to the exact window, and only then the unit
conversion by the fixed factor 1e-9 on channels 0-2 followed by the
time-integration.  The positions in the issued operation sequence are
1 (first detrend), 3 (first taper), 8 (bandpass), 9 (trim), 11 (first
scaling), 14 (integration). -/
theorem C2_rot_pipeline_order (tstart tend : ℤ) (fm fM : ℚ) :
    (rotSteps tstart tend fm fM).findIdx isDetrendStep = 1 ∧
    (rotSteps tstart tend fm fM).findIdx isTaperStep = 3 ∧
    (rotSteps tstart tend fm fM).findIdx isBandpassStep = 8 ∧
    (rotSteps tstart tend fm fM).findIdx isTrimStep = 9 ∧
    (rotSteps tstart tend fm fM).findIdx isScaleStep = 11 ∧
    (rotSteps tstart tend fm fM).findIdx isIntegrateStep = 14 ∧
    Step.bandpass fm fM 2 true ∈ rotSteps tstart tend fm fM ∧
    Step.trim tstart tend ∈ rotSteps tstart tend fm fM ∧
    Step.scaleChannel 0 nano ∈ rotSteps tstart tend fm fM ∧
    ((rotSteps tstart tend fm fM).filter isScaleStep).length = 3 := by
  refine ⟨rfl, rfl, rfl, rfl, rfl, rfl, ?_, ?_, ?_, rfl⟩ <;> simp [rotSteps]

/-- Claim C3, as stated, is false on the colorbar count: the figure does
contain exactly 12 subplots, but a color bar is inserted in every one of
the six loop iterations, so 6 color bars are added, not 2. -/
theorem C3_counterexample :
    plotting6C_subplots.length = 12 ∧ ¬ (plotting6C_colorbars.length = 2) :=
  ⟨rfl, by simp [plotting6C_colorbars]⟩

/-- Claim C3 amended: the figure contains exactly 12 pairwise distinct
subplots on a 6 by 2 grid (positions 1 to 12, the 6 odd positions being
the seismogram column and the 6 even positions the spectrogram column),
and 6 color bar insertions at exactly 2 distinct axes rectangles: the
first three iterations use the translational rectangle, the last three
the rotational one, so 2 color bar locations appear (one per
physical-unit group). -/
theorem C3_figure_layout :
    plotting6C_subplots.length = 12 ∧
    plotting6C_subplots.Nodup ∧
    plotting6C_subplots.map (fun p => p.2.2) =
      [1, 2, 3, 4, 5, 6, 7, 8, 9, 10, 11, 12] ∧
    (∀ p ∈ plotting6C_subplots, p.1 = 6 ∧ p.2.1 = 2) ∧
    plotting6C_colorbars.length = 6 ∧
    plotting6C_colorbars =
      List.replicate 3 transColorbarRect ++ List.replicate 3 rotColorbarRect ∧
    transColorbarRect ≠ rotColorbarRect := by
  refine ⟨rfl, by decide, rfl, by decide, rfl, rfl, ?_⟩
  intro h
  simp only [transColorbarRect, rotColorbarRect, Prod.mk.injEq] at h
  norm_num at h

/-- Claim C4 confirmed: whenever `read_data` returns a merged stream, the
stream splits into the translational part followed by the rotational
part, each part is sorted by identifier (the sorting happened before the
merge), and every channel of the first part is translational while every
channel of the second is rotational, so all translational channels
precede all rotational ones. -/
theorem C4_sorted_merge (st_trans st_rot st : List Trace) (tm rm : ℚ)
    (hT : ∀ tr ∈ st_trans, isTranslational tr)
    (hR : ∀ tr ∈ st_rot, isRotational tr)
    (h : read_data st_trans st_rot = some (st, tm, rm)) :
    ∃ t r, st = t ++ r ∧
      List.Sorted traceLe t ∧ List.Sorted traceLe r ∧
      (∀ tr ∈ t, isTranslational tr) ∧ (∀ tr ∈ r, isRotational tr) := by
  simp only [read_data] at h
  cases hconv : convertRot (sortStream st_rot) with
  | none => simp only [hconv] at h; exact Option.noConfusion h
  | some r0 =>
    simp only [hconv] at h
    cases ht : (sortStream st_trans).head? with
    | none => simp only [ht] at h; exact Option.noConfusion h
    | some t0 =>
      cases hr : (r0.map integrateTrace).head? with
      | none => simp only [ht, hr] at h; exact Option.noConfusion h
      | some rh =>
        simp only [ht, hr, Option.some.injEq, Prod.mk.injEq] at h
        obtain ⟨hst, _, _⟩ := h
        refine ⟨sortStream st_trans, r0.map integrateTrace, hst.symm,
          ?_, ?_, ?_, ?_⟩
        · exact List.sorted_insertionSort traceLe st_trans
        · have hs : List.Sorted traceLe r0 :=
            sorted_convertRot _ _ hconv
              (List.sorted_insertionSort traceLe st_rot)
          exact List.Pairwise.map _ (fun a b hab => hab) hs
        · intro tr htr
          exact hT tr ((List.perm_insertionSort traceLe st_trans).subset htr)
        · intro tr htr
          rcases List.mem_map.mp htr with ⟨x, hx, rfl⟩
          rcases mem_convertRot _ _ hconv x hx with ⟨y, hy, hchan⟩
          have hy2 : y ∈ st_rot :=
            (List.perm_insertionSort traceLe st_rot).subset hy
          have hyrot := hR y hy2
          unfold isRotational at hyrot ⊢
          rw [show (integrateTrace x).channel = x.channel from rfl, hchan]
          exact hyrot

/-- Witness for C4: concrete six-channel input, hypotheses checked by
evaluation. -/
theorem C4_witness :
    (∀ tr ∈ cexTrans, isTranslational tr) ∧
    (∀ tr ∈ cexRot, isRotational tr) ∧
    (∃ t r, cexMerged = t ++ r ∧
      List.Sorted traceLe t ∧ List.Sorted traceLe r ∧
      (∀ tr ∈ t, isTranslational tr) ∧ (∀ tr ∈ r, isRotational tr)) :=
  ⟨by decide, by decide,
    C4_sorted_merge cexTrans cexRot cexMerged 1 0
      (by decide) (by decide) (by decide)⟩

/-- Claim C5 confirmed: every spectrogram panel issued by `plotting_6C`
hands the fixed window length 128 and the 50 percent overlap 64 to the
PSD computation, and the displayed frequency axis bounds are exactly
[fmin, fmax] = [0.5, 20], for every input stream, hence regardless of
the length of the plotted trace. -/
theorem C5_spectrogram_params (st : List Trace) (i : ℕ) :
    (plotting6C_spectro st i).nperseg = 128 ∧
    (plotting6C_spectro st i).noverlap = 64 ∧
    2 * (plotting6C_spectro st i).noverlap = (plotting6C_spectro st i).nperseg ∧
    (plotting6C_spectro st i).freqAxisLow = fmin ∧
    (plotting6C_spectro st i).freqAxisHigh = fmax ∧
    fmin = 1/2 ∧ fmax = 20 :=
  ⟨rfl, rfl, rfl, rfl, rfl, rfl, rfl⟩

/-- Claim C6 confirmed: the first operation on the translational stream
reads the files over the window padded by 30 seconds on each side, and
the first operation on the rotational stream reads them over the exact
event window. -/
theorem C6_read_windows (tstart tend : ℤ) (fm fM : ℚ) :
    (transSteps tstart tend fm fM).head? =
      some (Step.readFiles "ZR.RS1..HH*" (tstart - 30) (tend + 30)) ∧
    (rotSteps tstart tend fm fM).head? =
      some (Step.readFiles "ZR.RS1..HJ*" tstart tend) := by
  constructor
  · simp [transSteps]
  · rfl

/-- Claim C8, as stated, is false: the lower color bounds of the two
groups differ by exactly two orders of magnitude, but the upper bounds
differ by a factor of 10^6/3, more than five orders of magnitude. -/
theorem C8_counterexample :
    vmin1 = 100 * vmin ∧ ¬ (vmax1 = 100 * vmax) := by
  constructor <;> norm_num [vmin1, vmin, vmax1, vmax]

/-- Claim C8 amended: the translational color-scale bounds are strictly
higher than the rotational ones; the lower bounds differ by exactly two
orders of magnitude (factor 100) while the upper bounds differ by the
factor 10^6/3; the translational bounds (vmin1, vmax1) are applied to
panels 0-2 and the rotational bounds (vmin, vmax) to panels 3-5. -/
theorem C8_color_bounds :
    vmin1 = 100 * vmin ∧
    vmax1 = (10 ^ 6 / 3) * vmax ∧
    vmin < vmin1 ∧ vmax < vmax1 ∧
    (List.range 3).map spectrogramBounds = List.replicate 3 (vmin1, vmax1) ∧
    ((List.range 6).drop 3).map spectrogramBounds =
      List.replicate 3 (vmin, vmax) := by
  refine ⟨?_, ?_, ?_, ?_, rfl, rfl⟩ <;> norm_num [vmin1, vmin, vmax1, vmax]

/-- Claim C7 confirmed: the rotational conversion and integration step of
`read_data` (scaling by 1e-9, then cumulative trapezoidal integration
with uniform spacing `delta`) maps a constant rotation-rate input of value
`r` to a trace that grows linearly in time: sample `k`, at time
`k * delta` after the trace start, equals the unit-converted rate
`r * 1e-9` times `k * delta`. -/
theorem C7_constant_rate_linear (tr : Trace) (n k : ℕ) (r : ℚ)
    (hd : tr.data = List.replicate n r) (hk : k < n) :
    (integrateTrace (scaleTrace nano tr)).data.get? k =
      some ((r * nano) * (k * tr.delta)) := by
  simp only [integrateTrace, scaleTrace, hd, List.map_replicate]
  rw [cumtrapz_replicate tr.delta (r * nano) n k hk]
  congr 1
  ring

/-- Witness for C7: a five-sample constant trace at rate 2 and sampling
interval 1/100; sample 3 of the integrated trace is 2e-9 times 3/100. -/
theorem C7_witness :
    (⟨"ZR", "RS1", "", "HJ1", 1/100, [2, 2, 2, 2, 2]⟩ : Trace).data =
      List.replicate 5 2 ∧ 3 < 5 ∧
    (integrateTrace (scaleTrace nano
        ⟨"ZR", "RS1", "", "HJ1", 1/100, [2, 2, 2, 2, 2]⟩)).data.get? 3 =
      some ((2 * nano) * (3 * (1/100 : ℚ))) :=
  ⟨rfl, by omega,
    C7_constant_rate_linear ⟨"ZR", "RS1", "", "HJ1", 1/100, [2, 2, 2, 2, 2]⟩
      5 3 2 rfl (by omega)⟩

/-- Claim C9 confirmed: the driver iterates linearly over exactly six
hardcoded event windows, each end time being the start time plus a fixed
duration (120, 120, 90, 90, 120 and 120 seconds, tagged VT, VT, LP, LP,
no tremor and tremor), invoking load then compose for each;
there is no error recovery: when the events before some event all
succeed and that event fails (in load or in compose), the whole run
returns that failure, and a load failure short-circuits compose. -/
theorem C9_event_driver {α : Type} :
    events.length = 6 ∧
    events.map (fun e => e.tend.offset - e.tstart.offset) =
      [120, 120, 90, 90, 120, 120] ∧
    events.map (fun e => e.tag) =
      ["VT", "VT", "LP", "LP", "no tremor", "tremor"] ∧
    (∀ e ∈ events, e.tstart.offset = 0 ∧
      e.tend = addSec e.tstart e.tend.offset) ∧
    (∀ (load : EventWindow → Except String α)
      (compose : α → Except String Unit)
      (pre : List EventWindow) (e : EventWindow) (post : List EventWindow)
      (err : String),
      events = pre ++ e :: post →
      (∀ x ∈ pre, (load x).bind compose = Except.ok ()) →
      (load e).bind compose = Except.error err →
      runAllEvents load compose = Except.error err) ∧
    (∀ (load : EventWindow → Except String α)
      (compose : α → Except String Unit) (e : EventWindow) (err : String),
      load e = Except.error err →
      (load e).bind compose = Except.error err) := by
  refine ⟨rfl, by decide, by decide, by decide, ?_, ?_⟩
  · intro load compose pre e post err hsplit hpre he
    unfold runAllEvents
    rw [hsplit]
    exact processList_append_error _ pre e post err hpre he
  · intro load compose e err h
    rw [h]
    rfl

/-- Witness for C9: a loader that always fails with FileNotFoundError
aborts the whole run with that error at the first event. -/
theorem C9_witness :
    runAllEvents (fun _ => (Except.error "FileNotFoundError" : Except String Unit))
      (fun _ => Except.ok ()) = Except.error "FileNotFoundError" :=
  (@C9_event_driver Unit).2.2.2.2.1
    (fun _ => Except.error "FileNotFoundError") (fun _ => Except.ok ())
    [] ⟨⟨2019, 9, 4, 15, 52, 0, 0⟩, addSec ⟨2019, 9, 4, 15, 52, 0, 0⟩ 120, "VT"⟩
    [ ⟨⟨2019, 9, 17, 18, 40, 30, 0⟩, addSec ⟨2019, 9, 17, 18, 40, 30, 0⟩ 120, "VT"⟩
    , ⟨⟨2019, 8, 27, 14, 21, 0, 0⟩, addSec ⟨2019, 8, 27, 14, 21, 0, 0⟩ 90, "LP"⟩
    , ⟨⟨2019, 8, 27, 12, 18, 0, 0⟩, addSec ⟨2019, 8, 27, 12, 18, 0, 0⟩ 90, "LP"⟩
    , ⟨⟨2019, 9, 8, 12, 18, 0, 0⟩, addSec ⟨2019, 9, 8, 12, 18, 0, 0⟩ 120, "no tremor"⟩
    , ⟨⟨2019, 9, 9, 12, 18, 0, 0⟩, addSec ⟨2019, 9, 9, 12, 18, 0, 0⟩ 120, "tremor"⟩ ]
    "FileNotFoundError" rfl (by simp) rfl

/-- Claim C10 confirmed: for a six-channel stream whose channel names all
lie in the lookup set, every panel receives a label; when the first
plotted channel name lies outside the set, the label variable is never
assigned and the plotting fails with an unbound-local-variable error. -/
theorem C10_label_lookup (chans : List String) (hlen : chans.length = 6) :
    ((∀ c ∈ chans, c ∈ knownChannels) →
      ∃ labs, plotting6C_labels chans = Except.ok labs ∧ labs.length = 6) ∧
    (∀ c0 rest, chans = c0 :: rest → c0 ∉ knownChannels →
      plotting6C_labels chans = Except.error ()) := by
  constructor
  · intro hall
    obtain ⟨labs, hok, hl⟩ := labelPanels_ok chans none
      (fun c hc => chanLabel_isSome_of_mem c (hall c hc))
    exact ⟨labs, hok, by rw [hl, hlen]⟩
  · intro c0 rest hsplit hout
    subst hsplit
    simp only [plotting6C_labels, labelPanels,
      chanLabel_none_of_not_mem c0 hout, Option.orElse]

/-- Witness for C10: the actual channel sextuple is fully labelled, while
a stream starting with an unknown channel name fails. -/
theorem C10_witness :
    (∃ labs, plotting6C_labels ["HHE", "HHN", "HHZ", "HJE", "HJN", "HJZ"] =
      Except.ok labs ∧ labs.length = 6) ∧
    plotting6C_labels ["XXX", "HHN", "HHZ", "HJE", "HJN", "HJZ"] =
      Except.error () :=
  ⟨(C10_label_lookup ["HHE", "HHN", "HHZ", "HJE", "HJN", "HJZ"]
      (by decide)).1 (by decide),
   (C10_label_lookup ["XXX", "HHN", "HHZ", "HJE", "HJN", "HJZ"]
      (by decide)).2 "XXX" ["HHN", "HHZ", "HJE", "HJN", "HJZ"] rfl (by decide)⟩

end Etna
